import Mathlib

/-
Shallow embedding of the billing-record tiering engine
(`archival_service.py`, `cosmos_client.py`, `blob_client.py`).

Modelling choices, file by file:

* A billing record (a Python `Dict[str, Any]`) is `Rec`, a string-keyed
  association list; the claims depend only on the `"id"` and `"created_at"`
  fields and on whole-record equality, so field values are abstracted to
  strings.  `Rec.get` is Python's `dict.get` (first match, `none` if the
  key is absent).  JSON serialisation of a record into a blob and parsing
  it back (`json.dumps` / `json.loads`) is modelled as the identity: a
  blob stores the `Rec` it was written from.
* The three external stores are the fields of `St`: the Cosmos DB billing
  container (`primary`, documents keyed by their own `"id"` field), the
  Cosmos DB archive-index container (`archive_index`), and the blob
  container (`blobs`, keyed by blob path).
* Timestamps are `Int`; `datetime.fromisoformat` is an arbitrary partial
  parse function `parse : String → Option Int` (`none` models the
  `ValueError` it raises), and `isoformat` an arbitrary `fmt : Int → String`.
  The Cosmos selection query compares `created_at` strings with string `<`,
  exactly as `SELECT * FROM c WHERE c.created_at < @cutoff` does on the
  ISO strings stored in the documents.
* A store call that raises is modelled by an `Option` result (`none` =
  exception) for calls whose failure is data-determined, and by injected
  failure flags (`FailPlan`, `GetEnv`, the `queryFail` argument) for
  transient service failures.  Python truthiness tests on downloaded or
  read dictionaries (`if record:` / `if not record:`) are `truthy`.
* `create_item` on a Cosmos container raises when a document with the
  same id already exists, so `create_archive_index` and
  `create_billing_record` return `none` in that case; pydantic's
  validation of the remaining required `BillingRecord` fields in
  `restore_record` is abstracted to requiring the `"id"` field (no claim
  depends on the other fields being validated).
-/

/-- A billing record: a Python dict with field values abstracted to strings. -/
structure Rec where
  fields : List (String × String)
deriving DecidableEq, Repr

/-- First-match lookup in a string-keyed association list. -/
def kvLookup (k : String) : List (String × α) → Option α
  | [] => none
  | p :: t => if p.1 = k then some p.2 else kvLookup k t

/-- Python `record.get(k)`. -/
def Rec.get (r : Rec) (k : String) : Option String :=
  kvLookup k r.fields

/-- `models.ArchiveIndex`: one entry per archived record. -/
structure ArchiveIndex where
  id : String
  blob_path : String
  archived_at : Int
  original_created_at : Int
deriving DecidableEq, Repr

/-- The three external stores the service talks to. -/
structure St where
  primary : List Rec
  archive_index : List ArchiveIndex
  blobs : List (String × Rec)
deriving DecidableEq, Repr

/-- `models.ArchiveResponse`. -/
structure ArchiveResponse where
  success : Bool
  archived_count : Nat
  message : String
deriving DecidableEq, Repr

/-- Injected transient-failure flags for the three store calls made while
archiving one record: `upload_billing_record`, `create_archive_index`,
`delete_record`.  A `true` flag makes that call raise. -/
structure FailPlan where
  uploadFails : Bool
  indexFails : Bool
  deleteFails : Bool
deriving DecidableEq, Repr

/-- No injected failure. -/
def noFail : FailPlan := ⟨false, false, false⟩

/-- All three store calls succeed. -/
def FailPlan.isClean (p : FailPlan) : Bool :=
  !p.uploadFails && !p.indexFails && !p.deleteFails

/-- Cosmos `read_item(item=rid, partition_key=rid)` on the billing
container: the document whose own `id` field is `rid`. -/
def lookupById (rid : String) : List Rec → Option Rec
  | [] => none
  | r :: t => if r.get "id" = some rid then some r else lookupById rid t

/-- Cosmos `read_item` on the archive-index container. -/
def lookupIdx (rid : String) : List ArchiveIndex → Option ArchiveIndex
  | [] => none
  | e :: t => if e.id = rid then some e else lookupIdx rid t

/-- Cosmos `delete_item` on the billing container: drop the document
with id `rid`. -/
def removeById (rid : String) : List Rec → List Rec
  | [] => []
  | r :: t => if r.get "id" = some rid then removeById rid t else r :: removeById rid t

/-- Blob `delete_blob` / the overwrite part of `upload_blob`: drop the
blob at path `p`. -/
def removeBlob (p : String) : List (String × Rec) → List (String × Rec)
  | [] => []
  | b :: t => if b.1 = p then removeBlob p t else b :: removeBlob p t

/-- Python truthiness of an optional dict: `None` and `{}` are falsy. -/
def truthy : Option Rec → Option Rec
  | some r => if r.fields = [] then none else some r
  | none => none

/-- `CosmosDBClient.delete_record`: delete from the billing container,
returning `true`, or return `false` (without raising) when the document
is absent (`CosmosResourceNotFoundError`). -/
def delete_record (st : St) (rid : String) : St × Bool :=
  if (lookupById rid st.primary).isSome then
    ({ st with primary := removeById rid st.primary }, true)
  else
    (st, false)

/-- `BlobStorageClient.delete_billing_record`: delete the blob at the
canonical path `{rid}.json`, returning `false` (without raising) when it
is absent. -/
def delete_billing_record (st : St) (rid : String) : St × Bool :=
  if (kvLookup (rid ++ ".json") st.blobs).isSome then
    ({ st with blobs := removeBlob (rid ++ ".json") st.blobs }, true)
  else
    (st, false)

/-- State after `BlobStorageClient.upload_billing_record` wrote record `r`
at the canonical path `{rid}.json` (with `overwrite=True`). -/
def withBlob (st : St) (rid : String) (r : Rec) : St :=
  { st with blobs := (rid ++ ".json", r) :: removeBlob (rid ++ ".json") st.blobs }

/-- `BlobStorageClient.upload_billing_record`: store the record at
`{rid}.json` and return that blob name. -/
def upload_billing_record (st : St) (rid : String) (r : Rec) : St × String :=
  (withBlob st rid r, rid ++ ".json")

/-- State after an archive-index entry was inserted. -/
def withIdx (st : St) (e : ArchiveIndex) : St :=
  { st with archive_index := e :: st.archive_index }

/-- `CosmosDBClient.create_archive_index`: `create_item` raises
(`none`) when an entry with the same id already exists. -/
def create_archive_index (st : St) (e : ArchiveIndex) : Option St :=
  if (lookupIdx e.id st.archive_index).isSome then none
  else some (withIdx st e)

/-- `CosmosDBClient.create_billing_record`: pydantic requires the `"id"`
field; `create_item` raises (`none`) when a document with that id
already exists. -/
def create_billing_record (st : St) (r : Rec) : Option St :=
  match r.get "id" with
  | none => none
  | some rid =>
    if (lookupById rid st.primary).isSome then none
    else some { st with primary := r :: st.primary }

/-- The body of the per-record loop of `ArchivalService._archive_batch`:
extract the id (skip on missing or empty), upload the blob, build the
`ArchiveIndex` (the `fromisoformat` call raises when the `created_at`
value does not parse; the `now` fallback applies only when the field is
missing), create the index entry, delete from the billing container.
Any raise skips the record (`false` = not counted). -/
def archive_one_record (parse : String → Option Int) (fmt : Int → String) (now : Int)
    (p : FailPlan) (st : St) (r : Rec) : St × Bool :=
  match r.get "id" with
  | none => (st, false)
  | some rid =>
    if rid = "" then (st, false)
    else if p.uploadFails then (st, false)
    else
      let up := upload_billing_record st rid r
      match parse ((r.get "created_at").getD (fmt now)) with
      | none => (up.1, false)
      | some oca =>
        if p.indexFails then (up.1, false)
        else
          match create_archive_index up.1 ⟨rid, up.2, now, oca⟩ with
          | none => (up.1, false)
          | some st2 =>
            if p.deleteFails then (st2, false)
            else ((delete_record st2 rid).1, true)

/-- `ArchivalService._archive_batch`: archive each record of the batch
independently and sequentially, returning the end state and the number
of records whose three sub-steps all completed. -/
def archive_batch (parse : String → Option Int) (fmt : Int → String) (now : Int)
    (fp : Rec → FailPlan) : List Rec → St → St × Nat
  | [], st => (st, 0)
  | r :: t, st =>
    let step := archive_one_record parse fmt now (fp r) st r
    let rest := archive_batch parse fmt now fp t step.1
    (rest.1, (if step.2 then 1 else 0) + rest.2)

/-- Structural worker for `chunks`: the fuel bounds the number of slices
(one slice removes at least one element, so `l.length` fuel is enough). -/
def chunksAux (n : Nat) : Nat → List α → List (List α)
  | 0, _ => []
  | _ + 1, [] => []
  | fuel + 1, a :: t => (a :: t).take n :: chunksAux n fuel ((a :: t).drop n)

/-- `range(0, len(l), n)` slicing of `archive_old_records`: partition the
selection into consecutive batches of `n` records. -/
def chunks (n : Nat) (l : List α) : List (List α) := chunksAux n l.length l

/-- Code-point comparison of two characters. -/
def charLt (a b : Char) : Bool := a.toNat < b.toNat

/-- Lexicographic order on character lists. -/
def strLtAux : List Char → List Char → Bool
  | [], [] => false
  | [], _ :: _ => true
  | _ :: _, [] => false
  | a :: s, b :: t => if a = b then strLtAux s t else charLt a b

/-- The strict string order the Cosmos SQL `<` applies to the ISO
`created_at` strings: lexicographic by code point. -/
def cosmosStrLt (s t : String) : Bool := strLtAux s.data t.data

/-- `CosmosDBClient.get_records_to_archive`: the Cosmos query
`SELECT * FROM c WHERE c.created_at < @cutoff` (ISO strings compared as
strings; documents without the field are not selected). -/
def get_records_to_archive (st : St) (cutoff : String) : List Rec :=
  st.primary.filter (fun r =>
    match r.get "created_at" with
    | some s => cosmosStrLt s cutoff
    | none => false)

/-- `ArchivalService.archive_old_records`: compute the cutoff, query,
return early on an empty selection, process the selection in batches of
`batchSize`, and wrap everything in `try/except` producing an
`ArchiveResponse`.  `queryFail = some m` injects a raise (message `m`)
from the selection query; `batchSize = 0` makes Python's
`range(0, len, 0)` raise, which the same `except` turns into a failure
response. -/
def archive_old_records (parse : String → Option Int) (fmt : Int → String) (now : Int)
    (threshold : Nat) (batchSize : Nat) (queryFail : Option String)
    (fp : Rec → FailPlan) (st : St) : St × ArchiveResponse :=
  match queryFail with
  | some m => (st, ⟨false, 0, "Archival process failed: " ++ m⟩)
  | none =>
    let recs := get_records_to_archive st (fmt (now - (threshold : Int)))
    if recs = [] then
      (st, ⟨true, 0, "No records found for archival"⟩)
    else if batchSize = 0 then
      (st, ⟨false, 0, "Archival process failed: range() arg 3 must not be zero"⟩)
    else
      let out := (chunks batchSize recs).foldl
        (fun acc b =>
          let res := archive_batch parse fmt now fp b acc.1
          (res.1, acc.2 + res.2)) (st, 0)
      (out.1, ⟨true, out.2, "Successfully archived " ++ toString out.2 ++ " records"⟩)

/-- Injected transient failures for the store calls of
`ArchivalService.get_billing_record`: a `some m` makes that call raise a
non-not-found error with message `m` (not-found is never a raise in the
read path: the clients map it to `None`). -/
structure GetEnv where
  primaryErr : Option String
  indexErr : Option String
  blobPathErr : Option String
  canonErr : Option String
deriving DecidableEq, Repr

/-- No injected store failure. -/
def cleanGet : GetEnv := ⟨none, none, none, none⟩

/-- Result of `ArchivalService.get_billing_record`: a record, a
propagated store error, or the final `ValueError` (not found anywhere). -/
inductive GetResult where
  | ok (r : Rec)
  | storeErr (msg : String)
  | notFound (msg : String)
deriving DecidableEq, Repr

/-- Step 3 of the read path: `download_billing_record` at the canonical
`{rid}.json` path, then the terminal `ValueError`. -/
def canonicalStep (env : GetEnv) (st : St) (rid : String) : GetResult :=
  match env.canonErr with
  | some m => .storeErr m
  | none =>
    match truthy (kvLookup (rid ++ ".json") st.blobs) with
    | some r => .ok r
    | none => .notFound ("Billing record not found: " ++ rid)

/-- `ArchivalService.get_billing_record`: primary lookup, then
archive-index lookup followed by a blob fetch at the indexed path, then
the canonical-path fallback, else `ValueError`. -/
def get_billing_record (env : GetEnv) (st : St) (rid : String) : GetResult :=
  match env.primaryErr with
  | some m => .storeErr m
  | none =>
    match truthy (lookupById rid st.primary) with
    | some r => .ok r
    | none =>
      match env.indexErr with
      | some m => .storeErr m
      | none =>
        match lookupIdx rid st.archive_index with
        | some e =>
          match env.blobPathErr with
          | some m => .storeErr m
          | none =>
            match truthy (kvLookup e.blob_path st.blobs) with
            | some r => .ok r
            | none => canonicalStep env st rid
        | none => canonicalStep env st rid

/-- `ArchivalService.restore_record`: index lookup, blob fetch at the
indexed path, re-insert into the billing container, delete the blob,
then the final `self.cosmos_client.delete_record(record_id)` — which, as
in the source, deletes from the *billing* container (its inline comment
claims the archive-index container, but `delete_record` operates on
`self.container`). -/
def restore_record (st : St) (rid : String) : St × Bool :=
  match lookupIdx rid st.archive_index with
  | none => (st, false)
  | some e =>
    match truthy (kvLookup e.blob_path st.blobs) with
    | none => (st, false)
    | some r =>
      match create_billing_record st r with
      | none => (st, false)
      | some st1 =>
        let st2 := (delete_billing_record st1 rid).1
        let st3 := (delete_record st2 rid).1
        (st3, true)

/-- `ArchivalService.get_archival_stats` payload. -/
structure ArchStats where
  cosmos_db_records : Nat
  archived_records : Nat
  blob_storage_files : Nat
  archival_threshold_days : Nat
deriving DecidableEq, Repr

/-- A Cosmos `SELECT VALUE COUNT(1) FROM c` query over a container with
`n` documents: the iterator yields a single row holding the scalar `n`. -/
def countQueryItems (n : Nat) : List Nat := [n]

/-- `BlobStorageClient.list_archived_records`: the blob names. -/
def list_archived_records (st : St) : List String :=
  st.blobs.map Prod.fst

/-- `ArchivalService.get_archival_stats`: note that the source wraps the
two `COUNT` queries in `len(list(...))` — the *length of the result
list*, not the returned scalar. -/
def get_archival_stats (st : St) (threshold : Nat) : ArchStats :=
  { cosmos_db_records := (countQueryItems st.primary.length).length
  , archived_records := (countQueryItems st.archive_index.length).length
  , blob_storage_files := (list_archived_records st).length
  , archival_threshold_days := threshold }

/-! Basic lemmas about the store primitives. -/

theorem kvLookup_removeBlob_ne (p k : String) (h : p ≠ k) :
    ∀ l : List (String × Rec), kvLookup k (removeBlob p l) = kvLookup k l := by
  intro l
  induction l with
  | nil => rfl
  | cons b t ih =>
    simp only [removeBlob, kvLookup]
    by_cases hb : b.1 = p
    · rw [if_pos hb, if_neg (hb ▸ h), ih]
    · rw [if_neg hb]
      simp only [kvLookup, ih]

theorem kvLookup_withBlob_isSome (st : St) (rid : String) (r : Rec) (q : String)
    (h : (kvLookup q st.blobs).isSome) :
    (kvLookup q (withBlob st rid r).blobs).isSome := by
  simp only [withBlob, kvLookup]
  by_cases hq : rid ++ ".json" = q
  · rw [if_pos hq]; rfl
  · rw [if_neg hq, kvLookup_removeBlob_ne _ _ hq]
    exact h

theorem lookupById_removeById_self (rid : String) :
    ∀ l : List Rec, lookupById rid (removeById rid l) = none := by
  intro l
  induction l with
  | nil => rfl
  | cons r t ih =>
    simp only [removeById]
    by_cases hr : r.get "id" = some rid
    · rw [if_pos hr]; exact ih
    · rw [if_neg hr]
      simp only [lookupById, if_neg hr]
      exact ih

theorem lookupById_removeById_none (k rid : String) :
    ∀ l : List Rec, lookupById k l = none → lookupById k (removeById rid l) = none := by
  intro l
  induction l with
  | nil => intro _; rfl
  | cons r t ih =>
    intro h
    simp only [lookupById] at h
    by_cases hk : r.get "id" = some k
    · rw [if_pos hk] at h; exact absurd h (by simp)
    · rw [if_neg hk] at h
      simp only [removeById]
      by_cases hr : r.get "id" = some rid
      · rw [if_pos hr]; exact ih h
      · rw [if_neg hr]
        simp only [lookupById, if_neg hk]
        exact ih h

theorem mem_removeById_of_ne (r0 : Rec) (rid : String) (h0 : ¬ r0.get "id" = some rid) :
    ∀ l : List Rec, r0 ∈ l → r0 ∈ removeById rid l := by
  intro l
  induction l with
  | nil => intro h; exact absurd h (List.not_mem_nil r0)
  | cons r t ih =>
    intro h
    rcases List.mem_cons.mp h with h | h
    · subst h
      simp only [removeById, if_neg h0]
      exact List.mem_cons_self _ _
    · simp only [removeById]
      by_cases hr : r.get "id" = some rid
      · rw [if_pos hr]; exact ih h
      · rw [if_neg hr]; exact List.mem_cons_of_mem _ (ih h)

theorem lookupIdx_cons (e : ArchiveIndex) (t : List ArchiveIndex) (k : String) :
    lookupIdx k (e :: t) = if e.id = k then some e else lookupIdx k t := rfl

/-! Lemmas about `delete_record`. -/

theorem delete_record_archive_index (st : St) (rid : String) :
    (delete_record st rid).1.archive_index = st.archive_index := by
  unfold delete_record; split <;> rfl

theorem delete_record_blobs (st : St) (rid : String) :
    (delete_record st rid).1.blobs = st.blobs := by
  unfold delete_record; split <;> rfl

theorem delete_record_lookup_self (st : St) (rid : String) :
    lookupById rid (delete_record st rid).1.primary = none := by
  unfold delete_record
  by_cases h : (lookupById rid st.primary).isSome
  · rw [if_pos h]; exact lookupById_removeById_self rid st.primary
  · rw [if_neg h]; exact Option.not_isSome_iff_eq_none.mp h

theorem delete_record_primary_none (st : St) (rid k : String)
    (h : lookupById k st.primary = none) :
    lookupById k (delete_record st rid).1.primary = none := by
  unfold delete_record
  split
  · exact lookupById_removeById_none k rid st.primary h
  · exact h

theorem delete_record_mem (st : St) (rid : String) (r0 : Rec) (h : r0 ∈ st.primary) :
    r0 ∈ (delete_record st rid).1.primary ∨ r0.get "id" = some rid := by
  by_cases h0 : r0.get "id" = some rid
  · exact Or.inr h0
  · left
    unfold delete_record
    split
    · exact mem_removeById_of_ne r0 rid h0 st.primary h
    · exact h

theorem delete_record_of_absent (st : St) (rid : String)
    (h : lookupById rid st.primary = none) :
    delete_record st rid = (st, false) := by
  unfold delete_record
  rw [if_neg (by simp [h])]

/-! Case analysis of `archive_one_record`: the four state shapes a single
record's processing can end in (skip with nothing written, skip after the
blob upload, skip after blob and index entry, full success). -/

theorem archive_one_record_shape (parse : String → Option Int) (fmt : Int → String)
    (now : Int) (p : FailPlan) (st : St) (r : Rec) :
    archive_one_record parse fmt now p st r = (st, false) ∨
    (∃ rid, r.get "id" = some rid ∧
      archive_one_record parse fmt now p st r = (withBlob st rid r, false)) ∨
    (∃ rid oca, r.get "id" = some rid ∧
      archive_one_record parse fmt now p st r =
        (withIdx (withBlob st rid r) ⟨rid, rid ++ ".json", now, oca⟩, false)) ∨
    (∃ rid oca, r.get "id" = some rid ∧
      archive_one_record parse fmt now p st r =
        ((delete_record (withIdx (withBlob st rid r) ⟨rid, rid ++ ".json", now, oca⟩) rid).1,
          true)) := by
  unfold archive_one_record
  split
  · exact Or.inl rfl
  next rid hid =>
    split
    · exact Or.inl rfl
    · split
      · exact Or.inl rfl
      · dsimp only [upload_billing_record]
        split
        · exact Or.inr (Or.inl ⟨rid, hid, rfl⟩)
        next oca hp =>
          split
          · exact Or.inr (Or.inl ⟨rid, hid, rfl⟩)
          · split
            · exact Or.inr (Or.inl ⟨rid, hid, rfl⟩)
            next st2 hc =>
              have hst2 : st2 = withIdx (withBlob st rid r) ⟨rid, rid ++ ".json", now, oca⟩ := by
                unfold create_archive_index at hc
                split at hc
                · exact absurd hc (by simp)
                · exact (Option.some.inj hc).symm
              subst hst2
              split
              · exact Or.inr (Or.inr (Or.inl ⟨rid, oca, hid, rfl⟩))
              · exact Or.inr (Or.inr (Or.inr ⟨rid, oca, hid, rfl⟩))

/-! Per-step preservation lemmas derived from the shape analysis. -/

theorem aor_idx_mono (parse : String → Option Int) (fmt : Int → String) (now : Int)
    (p : FailPlan) (st : St) (r : Rec) (k : String)
    (h : (lookupIdx k st.archive_index).isSome) :
    (lookupIdx k (archive_one_record parse fmt now p st r).1.archive_index).isSome := by
  rcases archive_one_record_shape parse fmt now p st r with he | ⟨rid, _, he⟩ |
    ⟨rid, oca, _, he⟩ | ⟨rid, oca, _, he⟩ <;> rw [he]
  · exact h
  · exact h
  · simp only [withIdx, withBlob, lookupIdx_cons]
    split
    · rfl
    · exact h
  · rw [delete_record_archive_index]
    simp only [withIdx, withBlob, lookupIdx_cons]
    split
    · rfl
    · exact h

theorem aor_blob_mono (parse : String → Option Int) (fmt : Int → String) (now : Int)
    (p : FailPlan) (st : St) (r : Rec) (q : String)
    (h : (kvLookup q st.blobs).isSome) :
    (kvLookup q (archive_one_record parse fmt now p st r).1.blobs).isSome := by
  rcases archive_one_record_shape parse fmt now p st r with he | ⟨rid, _, he⟩ |
    ⟨rid, oca, _, he⟩ | ⟨rid, oca, _, he⟩ <;> rw [he]
  · exact h
  · exact kvLookup_withBlob_isSome st rid r q h
  · exact kvLookup_withBlob_isSome st rid r q h
  · rw [delete_record_blobs]
    exact kvLookup_withBlob_isSome st rid r q h

theorem aor_primary_none (parse : String → Option Int) (fmt : Int → String) (now : Int)
    (p : FailPlan) (st : St) (r : Rec) (k : String)
    (h : lookupById k st.primary = none) :
    lookupById k (archive_one_record parse fmt now p st r).1.primary = none := by
  rcases archive_one_record_shape parse fmt now p st r with he | ⟨rid, _, he⟩ |
    ⟨rid, oca, _, he⟩ | ⟨rid, oca, _, he⟩ <;> rw [he]
  · exact h
  · exact h
  · exact h
  · exact delete_record_primary_none _ rid k h

/-- A record id that is migrated but possibly not yet consistent again:
absent from the billing container, with an archive-index entry and a blob
at the canonical path. -/
def migratedLoose (st : St) (rid : String) : Prop :=
  lookupById rid st.primary = none ∧
  (lookupIdx rid st.archive_index).isSome ∧
  (kvLookup (rid ++ ".json") st.blobs).isSome

theorem aor_migratedLoose (parse : String → Option Int) (fmt : Int → String) (now : Int)
    (p : FailPlan) (st : St) (r : Rec) (k : String) (h : migratedLoose st k) :
    migratedLoose (archive_one_record parse fmt now p st r).1 k :=
  ⟨aor_primary_none parse fmt now p st r k h.1,
   aor_idx_mono parse fmt now p st r k h.2.1,
   aor_blob_mono parse fmt now p st r (k ++ ".json") h.2.2⟩

theorem aor_mem (parse : String → Option Int) (fmt : Int → String) (now : Int)
    (p : FailPlan) (st : St) (r r0 : Rec) (h : r0 ∈ st.primary) :
    r0 ∈ (archive_one_record parse fmt now p st r).1.primary ∨
    ∃ rid, r0.get "id" = some rid ∧
      migratedLoose (archive_one_record parse fmt now p st r).1 rid := by
  rcases archive_one_record_shape parse fmt now p st r with he | ⟨rid, _, he⟩ |
    ⟨rid, oca, _, he⟩ | ⟨rid, oca, hid, he⟩ <;> rw [he]
  · exact Or.inl h
  · exact Or.inl h
  · exact Or.inl h
  · have hmem : r0 ∈ (withIdx (withBlob st rid r) ⟨rid, rid ++ ".json", now, oca⟩).primary := h
    rcases delete_record_mem _ rid r0 hmem with h' | h'
    · exact Or.inl h'
    · refine Or.inr ⟨rid, h', delete_record_lookup_self _ rid, ?_, ?_⟩
      · rw [delete_record_archive_index]
        simp [withIdx, withBlob, lookupIdx_cons]
      · rw [delete_record_blobs]
        simp [withIdx, withBlob, kvLookup]

/-! The exact outcome of one record's processing when the record itself is
well formed and no conflicting index entry pre-exists. -/

theorem aor_success_state (parse : String → Option Int) (fmt : Int → String) (now : Int)
    (st : St) (r : Rec) (rid : String) (oca : Int)
    (hid : r.get "id" = some rid) (hne : rid ≠ "")
    (hp : parse ((r.get "created_at").getD (fmt now)) = some oca)
    (hidx : lookupIdx rid st.archive_index = none) :
    archive_one_record parse fmt now noFail st r =
      ((delete_record (withIdx (withBlob st rid r) ⟨rid, rid ++ ".json", now, oca⟩) rid).1,
        true) := by
  have hca : create_archive_index (withBlob st rid r) ⟨rid, rid ++ ".json", now, oca⟩ =
      some (withIdx (withBlob st rid r) ⟨rid, rid ++ ".json", now, oca⟩) := by
    unfold create_archive_index
    rw [if_neg (by simp [withBlob, hidx])]
  unfold archive_one_record
  simp only [hid, noFail, if_neg hne]
  dsimp only [upload_billing_record]
  simp only [hp, hca]
  simp

theorem aor_snd_eq_isClean (parse : String → Option Int) (fmt : Int → String) (now : Int)
    (p : FailPlan) (st : St) (r : Rec) (rid : String)
    (hid : r.get "id" = some rid) (hne : rid ≠ "")
    (hca : (parse ((r.get "created_at").getD (fmt now))).isSome)
    (hidx : lookupIdx rid st.archive_index = none) :
    (archive_one_record parse fmt now p st r).2 = p.isClean := by
  obtain ⟨oca, hp⟩ := Option.isSome_iff_exists.mp hca
  have hcai : create_archive_index (withBlob st rid r) ⟨rid, rid ++ ".json", now, oca⟩ =
      some (withIdx (withBlob st rid r) ⟨rid, rid ++ ".json", now, oca⟩) := by
    unfold create_archive_index
    rw [if_neg (by simp [withBlob, hidx])]
  obtain ⟨u, i, d⟩ := p
  unfold archive_one_record
  simp only [hid, if_neg hne]
  dsimp only [upload_billing_record]
  simp only [hp, hcai, FailPlan.isClean]
  cases u <;> cases i <;> cases d <;> simp

/-- After one record's processing, the archive-index container either is
unchanged or gained one entry whose id is that record's id. -/
theorem aor_idx_after (parse : String → Option Int) (fmt : Int → String) (now : Int)
    (p : FailPlan) (st : St) (r : Rec) :
    (archive_one_record parse fmt now p st r).1.archive_index = st.archive_index ∨
    ∃ rid oca, r.get "id" = some rid ∧
      (archive_one_record parse fmt now p st r).1.archive_index =
        (⟨rid, rid ++ ".json", now, oca⟩ : ArchiveIndex) :: st.archive_index := by
  rcases archive_one_record_shape parse fmt now p st r with he | ⟨rid, _, he⟩ |
    ⟨rid, oca, hid, he⟩ | ⟨rid, oca, hid, he⟩ <;> rw [he]
  · exact Or.inl rfl
  · exact Or.inl rfl
  · exact Or.inr ⟨rid, oca, hid, rfl⟩
  · rw [delete_record_archive_index]
    exact Or.inr ⟨rid, oca, hid, rfl⟩

/-! Batch-level inductions. -/

theorem ab_migratedLoose (parse : String → Option Int) (fmt : Int → String) (now : Int)
    (fp : Rec → FailPlan) (k : String) :
    ∀ (l : List Rec) (st : St), migratedLoose st k →
      migratedLoose (archive_batch parse fmt now fp l st).1 k := by
  intro l
  induction l with
  | nil => intro st h; exact h
  | cons r t ih =>
    intro st h
    exact ih _ (aor_migratedLoose parse fmt now (fp r) st r k h)

theorem ab_mem (parse : String → Option Int) (fmt : Int → String) (now : Int)
    (fp : Rec → FailPlan) (r0 : Rec) :
    ∀ (l : List Rec) (st : St), r0 ∈ st.primary →
      r0 ∈ (archive_batch parse fmt now fp l st).1.primary ∨
      ∃ rid, r0.get "id" = some rid ∧
        migratedLoose (archive_batch parse fmt now fp l st).1 rid := by
  intro l
  induction l with
  | nil => intro st h; exact Or.inl h
  | cons r t ih =>
    intro st h
    rcases aor_mem parse fmt now (fp r) st r r0 h with h' | ⟨rid, hid, hm⟩
    · exact ih _ h'
    · exact Or.inr ⟨rid, hid, ab_migratedLoose parse fmt now fp rid t _ hm⟩

theorem isClean_eq_noFail (p : FailPlan) (h : p.isClean = true) : p = noFail := by
  obtain ⟨u, i, d⟩ := p
  simp only [FailPlan.isClean, Bool.and_eq_true, Bool.not_eq_true'] at h
  simp [noFail, h.1.1, h.1.2, h.2]

theorem isClean_eq_false_of_ne (p : FailPlan) (h : p ≠ noFail) : p.isClean = false := by
  cases hc : p.isClean with
  | false => rfl
  | true => exact absurd (isClean_eq_noFail p hc) h

/-- Under well-formedness of every batch record (nonempty id, parsable
`created_at`, pairwise-distinct ids, no pre-existing index entry), the
batch count is exactly the number of records whose three store calls all
succeed. -/
theorem ab_count (parse : String → Option Int) (fmt : Int → String) (now : Int)
    (fp : Rec → FailPlan) :
    ∀ (l : List Rec) (st : St),
      (∀ r ∈ l, ∃ rid, r.get "id" = some rid ∧ rid ≠ "" ∧
          (parse ((r.get "created_at").getD (fmt now))).isSome ∧
          lookupIdx rid st.archive_index = none) →
      l.Pairwise (fun a b => a.get "id" ≠ b.get "id") →
      (archive_batch parse fmt now fp l st).2 = l.countP (fun r => (fp r).isClean) := by
  intro l
  induction l with
  | nil => intro st _ _; rfl
  | cons r t ih =>
    intro st hWF hpw
    obtain ⟨rid, hid, hne, hca, hidx⟩ := hWF r (List.mem_cons_self r t)
    obtain ⟨hhead, htail⟩ := List.pairwise_cons.mp hpw
    have hsnd := aor_snd_eq_isClean parse fmt now (fp r) st r rid hid hne hca hidx
    have htailWF : ∀ r' ∈ t, ∃ rid', r'.get "id" = some rid' ∧ rid' ≠ "" ∧
        (parse ((r'.get "created_at").getD (fmt now))).isSome ∧
        lookupIdx rid' (archive_one_record parse fmt now (fp r) st r).1.archive_index = none := by
      intro r' hr'
      obtain ⟨rid', hid', hne', hca', hidx'⟩ := hWF r' (List.mem_cons_of_mem r hr')
      refine ⟨rid', hid', hne', hca', ?_⟩
      rcases aor_idx_after parse fmt now (fp r) st r with heq | ⟨rid0, oca0, hid0, heq⟩
      · rw [heq]; exact hidx'
      · rw [heq, lookupIdx_cons]
        have : rid0 ≠ rid' := by
          intro hcontra
          exact hhead r' hr' (by rw [hid0, hid', hcontra])
        rw [if_neg this]
        exact hidx'
    simp only [archive_batch]
    rw [ih _ htailWF htail, hsnd, List.countP_cons]
    cases (fp r).isClean <;> simp [Nat.add_comm]

/-- Every well-formed batch record whose three store calls succeed ends
the batch migrated: gone from the billing container, with an index entry
and a blob at its canonical path. -/
theorem ab_migrate_status (parse : String → Option Int) (fmt : Int → String) (now : Int)
    (fp : Rec → FailPlan) :
    ∀ (l : List Rec) (st : St),
      (∀ r ∈ l, ∃ rid, r.get "id" = some rid ∧ rid ≠ "" ∧
          (parse ((r.get "created_at").getD (fmt now))).isSome ∧
          lookupIdx rid st.archive_index = none) →
      l.Pairwise (fun a b => a.get "id" ≠ b.get "id") →
      ∀ g ∈ l, (fp g).isClean = true → ∀ rid, g.get "id" = some rid →
        migratedLoose (archive_batch parse fmt now fp l st).1 rid := by
  intro l
  induction l with
  | nil => intro st _ _ g hg; exact absurd hg (List.not_mem_nil g)
  | cons r t ih =>
    intro st hWF hpw g hg hclean rid hgid
    obtain ⟨hhead, htail⟩ := List.pairwise_cons.mp hpw
    have htailWF : ∀ r' ∈ t, ∃ rid', r'.get "id" = some rid' ∧ rid' ≠ "" ∧
        (parse ((r'.get "created_at").getD (fmt now))).isSome ∧
        lookupIdx rid' (archive_one_record parse fmt now (fp r) st r).1.archive_index = none := by
      intro r' hr'
      obtain ⟨rid', hid', hne', hca', hidx'⟩ := hWF r' (List.mem_cons_of_mem r hr')
      refine ⟨rid', hid', hne', hca', ?_⟩
      rcases aor_idx_after parse fmt now (fp r) st r with heq | ⟨rid0, oca0, hid0, heq⟩
      · rw [heq]; exact hidx'
      · rw [heq, lookupIdx_cons]
        have : rid0 ≠ rid' := by
          intro hcontra
          exact hhead r' hr' (by rw [hid0, hid', hcontra])
        rw [if_neg this]
        exact hidx'
    rcases List.mem_cons.mp hg with hg | hg
    · subst hg
      obtain ⟨rid0, hid0, hne, hca, hidx⟩ := hWF g (List.mem_cons_self g t)
      have hrid0 : rid0 = rid := by
        rw [hgid] at hid0
        exact (Option.some.inj hid0).symm
      subst hrid0
      obtain ⟨oca, hp⟩ := Option.isSome_iff_exists.mp hca
      have hstate := aor_success_state parse fmt now st g rid0 oca hid0 hne hp hidx
      rw [← isClean_eq_noFail (fp g) hclean] at hstate
      have hml : migratedLoose (archive_one_record parse fmt now (fp g) st g).1 rid0 := by
        rw [hstate]
        refine ⟨delete_record_lookup_self _ rid0, ?_, ?_⟩
        · rw [delete_record_archive_index]
          simp [withIdx, withBlob, lookupIdx_cons]
        · rw [delete_record_blobs]
          simp [withIdx, withBlob, kvLookup]
      simp only [archive_batch]
      exact ab_migratedLoose parse fmt now fp rid0 t _ hml
    · simp only [archive_batch]
      exact ih _ htailWF htail g hg hclean rid hgid

/-! Sequential batches compose: processing the chunked selection is
processing the selection. -/

theorem ab_append (parse : String → Option Int) (fmt : Int → String) (now : Int)
    (fp : Rec → FailPlan) (l₁ l₂ : List Rec) :
    ∀ st : St, archive_batch parse fmt now fp (l₁ ++ l₂) st =
      ((archive_batch parse fmt now fp l₂ (archive_batch parse fmt now fp l₁ st).1).1,
        (archive_batch parse fmt now fp l₁ st).2 +
          (archive_batch parse fmt now fp l₂ (archive_batch parse fmt now fp l₁ st).1).2) := by
  induction l₁ with
  | nil => intro st; simp [archive_batch]
  | cons r t ih =>
    intro st
    simp only [List.cons_append, archive_batch, List.append_eq]
    rw [ih]
    simp [Nat.add_assoc]

theorem fold_chunksAux (parse : String → Option Int) (fmt : Int → String) (now : Int)
    (fp : Rec → FailPlan) (n : Nat) (hn : 0 < n) :
    ∀ (fuel : Nat) (l : List Rec), l.length ≤ fuel → ∀ (st : St) (c : Nat),
      (chunksAux n fuel l).foldl
        (fun acc b =>
          let res := archive_batch parse fmt now fp b acc.1
          (res.1, acc.2 + res.2)) (st, c) =
      ((archive_batch parse fmt now fp l st).1,
        c + (archive_batch parse fmt now fp l st).2) := by
  intro fuel
  induction fuel with
  | zero =>
    intro l hl st c
    have hnil : l = [] := List.length_eq_zero.mp (Nat.le_zero.mp hl)
    subst hnil
    simp [chunksAux, archive_batch]
  | succ fuel ih =>
    intro l hl st c
    cases l with
    | nil => simp [chunksAux, archive_batch]
    | cons a t =>
      rw [chunksAux]
      rw [List.foldl_cons]
      have hdrop : ((a :: t).drop n).length ≤ fuel := by
        simp only [List.length_drop, List.length_cons]
        simp only [List.length_cons] at hl
        omega
      rw [ih _ hdrop]
      conv_rhs => rw [← List.take_append_drop n (a :: t)]
      rw [ab_append]
      simp [Nat.add_assoc]

theorem fold_chunks (parse : String → Option Int) (fmt : Int → String) (now : Int)
    (fp : Rec → FailPlan) (n : Nat) (hn : 0 < n) (l : List Rec) (st : St) (c : Nat) :
    (chunks n l).foldl
      (fun acc b =>
        let res := archive_batch parse fmt now fp b acc.1
        (res.1, acc.2 + res.2)) (st, c) =
    ((archive_batch parse fmt now fp l st).1,
      c + (archive_batch parse fmt now fp l st).2) :=
  fold_chunksAux parse fmt now fp n hn l.length l le_rfl st c

/-- The non-degenerate archival run: the query succeeds and selects
something, and the chunked processing is the sequential processing of the
whole selection. -/
theorem archive_old_records_run (parse : String → Option Int) (fmt : Int → String)
    (now : Int) (thr bs : Nat) (fp : Rec → FailPlan) (st : St)
    (hbs : 0 < bs)
    (hne : get_records_to_archive st (fmt (now - (thr : Int))) ≠ []) :
    archive_old_records parse fmt now thr bs none fp st =
      ((archive_batch parse fmt now fp
          (get_records_to_archive st (fmt (now - (thr : Int)))) st).1,
        ⟨true,
          (archive_batch parse fmt now fp
            (get_records_to_archive st (fmt (now - (thr : Int)))) st).2,
          "Successfully archived " ++
            toString (archive_batch parse fmt now fp
              (get_records_to_archive st (fmt (now - (thr : Int)))) st).2 ++
            " records"⟩) := by
  unfold archive_old_records
  simp only [if_neg hne, if_neg (Nat.pos_iff_ne_zero.mp hbs)]
  rw [fold_chunks parse fmt now fp bs hbs
    (get_records_to_archive st (fmt (now - (thr : Int)))) st 0]
  simp

/-! The claims. -/

/-- C1: counterexample to restore reversibility, at a concretely migrated
record.  Before migration `GetRecord` returns the record; migration moves
it to the cold tier with an index entry; `RestoreRecord` then reports
success, but the final `delete_record` call removes the freshly restored
record from the billing container (not the archive-index entry, which
survives), the cold blob is gone, and a subsequent `GetRecord` fails with
not-found: the record is lost. -/
theorem restore_record_deletes_primary_copy_cex :
    get_billing_record cleanGet
        ⟨[⟨[("id", "r1"), ("created_at", "10"), ("amount", "5")]⟩], [], []⟩ "r1" =
      .ok ⟨[("id", "r1"), ("created_at", "10"), ("amount", "5")]⟩ ∧
    (archive_batch (fun s => if s = "10" then some 10 else none) (fun _ => "T") 100
        (fun _ => noFail) [⟨[("id", "r1"), ("created_at", "10"), ("amount", "5")]⟩]
        ⟨[⟨[("id", "r1"), ("created_at", "10"), ("amount", "5")]⟩], [], []⟩).1 =
      ⟨[], [⟨"r1", "r1.json", 100, 10⟩],
        [("r1.json", ⟨[("id", "r1"), ("created_at", "10"), ("amount", "5")]⟩)]⟩ ∧
    restore_record
        ⟨[], [⟨"r1", "r1.json", 100, 10⟩],
          [("r1.json", ⟨[("id", "r1"), ("created_at", "10"), ("amount", "5")]⟩)]⟩ "r1" =
      (⟨[], [⟨"r1", "r1.json", 100, 10⟩], []⟩, true) ∧
    get_billing_record cleanGet ⟨[], [⟨"r1", "r1.json", 100, 10⟩], []⟩ "r1" =
      .notFound "Billing record not found: r1" := by decide

/-- C2: counterexample to the stats snapshot, at a store holding two
billing records, no index entries and no blobs: `get_archival_stats`
reports one primary record and one archived record (the length of the
one-row `COUNT` result list), not the true counts two and zero. -/
theorem get_archival_stats_counts_one_cex :
    get_archival_stats ⟨[⟨[("id", "a")]⟩, ⟨[("id", "b")]⟩], [], []⟩ 90 = ⟨1, 1, 0, 90⟩ ∧
    ([⟨[("id", "a")]⟩, ⟨[("id", "b")]⟩] : List Rec).length = 2 ∧
    ([] : List ArchiveIndex).length = 0 := by decide

/-- C3: counterexample to the unparsable-`created_at` fallback.  A record
whose `created_at` is present but unparsable (the same parse function
accepts the formatted `now`, so the fallback path itself would have
succeeded) is not migrated: the `fromisoformat` raise skips the record,
which stays in the billing container with no index entry. -/
theorem unparsable_created_at_skips_record_cex :
    (archive_one_record (fun s => if s = "good" then some 77 else none) (fun _ => "good") 77
        noFail ⟨[⟨[("id", "rX"), ("created_at", "bad-date")]⟩], [], []⟩
        ⟨[("id", "rX"), ("created_at", "bad-date")]⟩).2 = false ∧
    (archive_one_record (fun s => if s = "good" then some 77 else none) (fun _ => "good") 77
        noFail ⟨[⟨[("id", "rX"), ("created_at", "bad-date")]⟩], [], []⟩
        ⟨[("id", "rX"), ("created_at", "bad-date")]⟩).1.archive_index = [] ∧
    (archive_one_record (fun s => if s = "good" then some 77 else none) (fun _ => "good") 77
        noFail ⟨[⟨[("id", "rX"), ("created_at", "bad-date")]⟩], [], []⟩
        ⟨[("id", "rX"), ("created_at", "bad-date")]⟩).1.primary =
      [⟨[("id", "rX"), ("created_at", "bad-date")]⟩] := by decide

/-- C3 (amended): the `now` fallback for `original_created_at` applies
exactly when the record has no `created_at` field (in which case the
record migrates and the entry records `now`); when the field is present
but unparsable, that record's migration fails: it is skipped right after
the blob upload, not counted, and left in the billing container. -/
theorem created_at_fallback_only_when_missing (parse : String → Option Int)
    (fmt : Int → String) (now : Int) (st : St) (r : Rec) (rid : String)
    (hid : r.get "id" = some rid) (hne : rid ≠ "") :
    (r.get "created_at" = none → parse (fmt now) = some now →
      lookupIdx rid st.archive_index = none →
      (archive_one_record parse fmt now noFail st r).2 = true ∧
      lookupIdx rid (archive_one_record parse fmt now noFail st r).1.archive_index =
        some ⟨rid, rid ++ ".json", now, now⟩) ∧
    (∀ s, r.get "created_at" = some s → parse s = none →
      archive_one_record parse fmt now noFail st r = (withBlob st rid r, false)) := by
  constructor
  · intro hmiss hround hidx
    have hp : parse ((r.get "created_at").getD (fmt now)) = some now := by
      rw [hmiss]; exact hround
    have hstate := aor_success_state parse fmt now st r rid now hid hne hp hidx
    rw [hstate]
    refine ⟨rfl, ?_⟩
    rw [delete_record_archive_index]
    simp [withIdx, withBlob, lookupIdx_cons]
  · intro s hca hbadparse
    have hp : parse ((r.get "created_at").getD (fmt now)) = none := by
      rw [hca]; exact hbadparse
    unfold archive_one_record
    simp only [hid, noFail, if_neg hne]
    dsimp only [upload_billing_record]
    simp only [hp]
    simp

/-- C3 (amended) at a concrete input: a record with no `created_at`
migrates with `original_created_at = now`, and a record with an
unparsable `created_at` is skipped after the upload. -/
theorem created_at_fallback_only_when_missing_witness :
    ((archive_one_record (fun s => if s = "N" then some 55 else none) (fun _ => "N") 55
        noFail ⟨[⟨[("id", "m1")]⟩], [], []⟩ ⟨[("id", "m1")]⟩).2 = true ∧
      lookupIdx "m1" (archive_one_record (fun s => if s = "N" then some 55 else none)
        (fun _ => "N") 55 noFail ⟨[⟨[("id", "m1")]⟩], [], []⟩
        ⟨[("id", "m1")]⟩).1.archive_index = some ⟨"m1", "m1.json", 55, 55⟩) ∧
    archive_one_record (fun s => if s = "N" then some 55 else none) (fun _ => "N") 55
        noFail ⟨[⟨[("id", "u1"), ("created_at", "junk")]⟩], [], []⟩
        ⟨[("id", "u1"), ("created_at", "junk")]⟩ =
      (withBlob ⟨[⟨[("id", "u1"), ("created_at", "junk")]⟩], [], []⟩ "u1"
        ⟨[("id", "u1"), ("created_at", "junk")]⟩, false) :=
  ⟨(created_at_fallback_only_when_missing (fun s => if s = "N" then some 55 else none)
      (fun _ => "N") 55 ⟨[⟨[("id", "m1")]⟩], [], []⟩ ⟨[("id", "m1")]⟩ "m1"
      (by decide) (by decide)).1 (by decide) (by decide) (by decide),
   (created_at_fallback_only_when_missing (fun s => if s = "N" then some 55 else none)
      (fun _ => "N") 55 ⟨[⟨[("id", "u1"), ("created_at", "junk")]⟩], [], []⟩
      ⟨[("id", "u1"), ("created_at", "junk")]⟩ "u1"
      (by decide) (by decide)).2 "junk" (by decide) (by decide)⟩

/-- C8: `RestoreRecord` on an id with no archive-index entry returns
`false` and leaves all three stores exactly as they were. -/
theorem restore_without_index_mutates_nothing (st : St) (rid : String)
    (h : lookupIdx rid st.archive_index = none) :
    restore_record st rid = (st, false) := by
  unfold restore_record
  simp only [h]

/-- C8 at a concrete input: restoring an unknown id against non-empty
stores returns `false` and the state is untouched. -/
theorem restore_without_index_mutates_nothing_witness :
    restore_record ⟨[⟨[("id", "z")]⟩], [⟨"z", "z.json", 3, 1⟩],
        [("z.json", ⟨[("id", "z")]⟩)]⟩ "q" =
      (⟨[⟨[("id", "z")]⟩], [⟨"z", "z.json", 3, 1⟩], [("z.json", ⟨[("id", "z")]⟩)]⟩, false) :=
  restore_without_index_mutates_nothing
    ⟨[⟨[("id", "z")]⟩], [⟨"z", "z.json", 3, 1⟩], [("z.json", ⟨[("id", "z")]⟩)]⟩ "q" (by decide)

/-- C9: a well-formed record whose id is already absent from the billing
container is still counted by the batch: the primary-tier delete reports
not-found by returning `false` without raising (shown on the exact state
the delete sub-step runs in), so the per-record skip is not triggered. -/
theorem delete_not_found_still_counted (parse : String → Option Int) (fmt : Int → String)
    (now : Int) (st : St) (r : Rec) (rid : String)
    (hid : r.get "id" = some rid) (hne : rid ≠ "")
    (hca : (parse ((r.get "created_at").getD (fmt now))).isSome)
    (hidx : lookupIdx rid st.archive_index = none)
    (habs : lookupById rid st.primary = none) :
    (archive_one_record parse fmt now noFail st r).2 = true ∧
    ∀ oca : Int,
      delete_record (withIdx (withBlob st rid r) ⟨rid, rid ++ ".json", now, oca⟩) rid =
        (withIdx (withBlob st rid r) ⟨rid, rid ++ ".json", now, oca⟩, false) := by
  constructor
  · rw [aor_snd_eq_isClean parse fmt now noFail st r rid hid hne hca hidx]; rfl
  · intro oca
    exact delete_record_of_absent _ rid habs

/-- C9 at a concrete input: the record with id `w9` is not in the billing
container, yet its processing reports counted, and the delete sub-step
returns `false` on the state it actually runs in. -/
theorem delete_not_found_still_counted_witness :
    (archive_one_record (fun s => if s = "3" then some 3 else none) (fun _ => "3") 9
        noFail ⟨[], [], []⟩ ⟨[("id", "w9"), ("created_at", "3")]⟩).2 = true ∧
    delete_record
        (withIdx (withBlob ⟨[], [], []⟩ "w9" ⟨[("id", "w9"), ("created_at", "3")]⟩)
          ⟨"w9", "w9" ++ ".json", 9, 3⟩) "w9" =
      (withIdx (withBlob ⟨[], [], []⟩ "w9" ⟨[("id", "w9"), ("created_at", "3")]⟩)
        ⟨"w9", "w9" ++ ".json", 9, 3⟩, false) :=
  ⟨(delete_not_found_still_counted (fun s => if s = "3" then some 3 else none) (fun _ => "3") 9
      ⟨[], [], []⟩ ⟨[("id", "w9"), ("created_at", "3")]⟩ "w9"
      (by decide) (by decide) (by decide) (by decide) (by decide)).1,
   (delete_not_found_still_counted (fun s => if s = "3" then some 3 else none) (fun _ => "3") 9
      ⟨[], [], []⟩ ⟨[("id", "w9"), ("created_at", "3")]⟩ "w9"
      (by decide) (by decide) (by decide) (by decide) (by decide)).2 3⟩

/-- C4: `GetRecord` resolution order on a clean environment.  A (truthy)
primary hit wins; otherwise an index entry with a truthy blob at the
indexed path wins; otherwise a truthy blob at the canonical path is
returned — in particular when the index entry is missing entirely — and
the not-found failure occurs exactly when all three steps miss. -/
theorem get_record_resolution_order (st : St) (rid : String) :
    (∀ r, truthy (lookupById rid st.primary) = some r →
      get_billing_record cleanGet st rid = .ok r) ∧
    (∀ e r, truthy (lookupById rid st.primary) = none →
      lookupIdx rid st.archive_index = some e →
      truthy (kvLookup e.blob_path st.blobs) = some r →
      get_billing_record cleanGet st rid = .ok r) ∧
    (∀ r, truthy (lookupById rid st.primary) = none →
      lookupIdx rid st.archive_index = none →
      truthy (kvLookup (rid ++ ".json") st.blobs) = some r →
      get_billing_record cleanGet st rid = .ok r) ∧
    (∀ e r, truthy (lookupById rid st.primary) = none →
      lookupIdx rid st.archive_index = some e →
      truthy (kvLookup e.blob_path st.blobs) = none →
      truthy (kvLookup (rid ++ ".json") st.blobs) = some r →
      get_billing_record cleanGet st rid = .ok r) ∧
    (get_billing_record cleanGet st rid = .notFound ("Billing record not found: " ++ rid) ↔
      truthy (lookupById rid st.primary) = none ∧
      (∀ e, lookupIdx rid st.archive_index = some e →
        truthy (kvLookup e.blob_path st.blobs) = none) ∧
      truthy (kvLookup (rid ++ ".json") st.blobs) = none) := by
  refine ⟨?_, ?_, ?_, ?_, ?_, ?_⟩
  · intro r h
    unfold get_billing_record cleanGet
    simp only [h]
  · intro e r h1 h2 h3
    unfold get_billing_record cleanGet
    simp only [h1, h2, h3]
  · intro r h1 h2 h3
    unfold get_billing_record canonicalStep cleanGet
    simp only [h1, h2, h3]
  · intro e r h1 h2 h3 h4
    unfold get_billing_record canonicalStep cleanGet
    simp only [h1, h2, h3, h4]
  · intro h
    unfold get_billing_record canonicalStep cleanGet at h
    cases hp : truthy (lookupById rid st.primary) with
    | some r =>
      simp only [hp] at h
      exact GetResult.noConfusion h
    | none =>
      cases hidx : lookupIdx rid st.archive_index with
      | some e =>
        cases hb : truthy (kvLookup e.blob_path st.blobs) with
        | some r =>
          simp only [hp, hidx, hb] at h
          exact GetResult.noConfusion h
        | none =>
          cases hc : truthy (kvLookup (rid ++ ".json") st.blobs) with
          | some r =>
            simp only [hp, hidx, hb, hc] at h
            exact GetResult.noConfusion h
          | none =>
            refine ⟨rfl, ?_, rfl⟩
            intro e' he'
            rw [← Option.some.inj he']
            exact hb
      | none =>
        cases hc : truthy (kvLookup (rid ++ ".json") st.blobs) with
        | some r =>
          simp only [hp, hidx, hc] at h
          exact GetResult.noConfusion h
        | none =>
          refine ⟨rfl, ?_, rfl⟩
          intro e' he'
          exact Option.noConfusion he'
  · rintro ⟨h1, h2, h3⟩
    unfold get_billing_record canonicalStep cleanGet
    cases hidx : lookupIdx rid st.archive_index with
    | some e => simp only [h1, hidx, h2 e hidx, h3]
    | none => simp only [h1, hidx, h3]

/-- C4 at a concrete input (fallback coverage): a record with no primary
copy and no index entry, whose blob sits at the canonical path, is
returned by `GetRecord`. -/
theorem get_record_resolution_order_witness :
    get_billing_record cleanGet ⟨[], [], [("r7.json", ⟨[("id", "r7")]⟩)]⟩ "r7" =
      .ok ⟨[("id", "r7")]⟩ :=
  (get_record_resolution_order ⟨[], [], [("r7.json", ⟨[("id", "r7")]⟩)]⟩ "r7").2.2.1
    ⟨[("id", "r7")]⟩ (by decide) (by decide) (by decide)

/-- C10: only a not-found miss moves `GetRecord` to the next resolution
step.  A non-not-found error raised by the primary read, the index read,
or the blob fetch at the indexed path propagates out as that error, so
the remaining steps (in particular the canonical-path fallback) are not
attempted. -/
theorem get_record_error_propagation (env : GetEnv) (st : St) (rid m : String) :
    (env.primaryErr = some m → get_billing_record env st rid = .storeErr m) ∧
    (env.primaryErr = none → truthy (lookupById rid st.primary) = none →
      env.indexErr = some m → get_billing_record env st rid = .storeErr m) ∧
    (∀ e : ArchiveIndex, env.primaryErr = none →
      truthy (lookupById rid st.primary) = none → env.indexErr = none →
      lookupIdx rid st.archive_index = some e → env.blobPathErr = some m →
      get_billing_record env st rid = .storeErr m) := by
  refine ⟨?_, ?_, ?_⟩
  · intro h
    unfold get_billing_record
    simp only [h]
  · intro h1 h2 h3
    unfold get_billing_record
    simp only [h1, h2, h3]
  · intro e h1 h2 h3 h4 h5
    unfold get_billing_record
    simp only [h1, h2, h3, h4, h5]

/-- C10 at a concrete input: the blob fetch at the indexed path raises a
non-not-found error; `GetRecord` propagates it even though the canonical
blob exists and the canonical step would have returned it. -/
theorem get_record_error_propagation_witness :
    get_billing_record ⟨none, none, some "boom", none⟩
        ⟨[], [⟨"r1", "r1.json", 5, 3⟩], [("r1.json", ⟨[("id", "r1")]⟩)]⟩ "r1" =
      .storeErr "boom" :=
  (get_record_error_propagation ⟨none, none, some "boom", none⟩
      ⟨[], [⟨"r1", "r1.json", 5, 3⟩], [("r1.json", ⟨[("id", "r1")]⟩)]⟩ "r1" "boom").2.2
    ⟨"r1", "r1.json", 5, 3⟩ rfl (by decide) rfl (by decide) rfl

/-- C5: batch isolation.  In a batch of `N = l₁.length + 1 + l₂.length`
well-formed records (nonempty ids, parsable `created_at`, pairwise
distinct ids, no pre-existing index entries) in which exactly the record
`bad` suffers an injected store failure, the returned count is `N - 1`
and every other record is fully migrated: gone from the billing
container, with an index entry and a canonical-path blob. -/
theorem batch_isolation (parse : String → Option Int) (fmt : Int → String) (now : Int)
    (fp : Rec → FailPlan) (st : St) (l₁ l₂ : List Rec) (bad : Rec)
    (hWF : ∀ r ∈ l₁ ++ bad :: l₂, ∃ rid, r.get "id" = some rid ∧ rid ≠ "" ∧
        (parse ((r.get "created_at").getD (fmt now))).isSome ∧
        lookupIdx rid st.archive_index = none)
    (hpw : (l₁ ++ bad :: l₂).Pairwise (fun a b => a.get "id" ≠ b.get "id"))
    (hgood : ∀ r ∈ l₁ ++ l₂, fp r = noFail)
    (hbad : fp bad ≠ noFail) :
    (archive_batch parse fmt now fp (l₁ ++ bad :: l₂) st).2 = l₁.length + l₂.length ∧
    ∀ g ∈ l₁ ++ l₂, ∀ rid, g.get "id" = some rid →
      lookupById rid (archive_batch parse fmt now fp (l₁ ++ bad :: l₂) st).1.primary = none ∧
      (lookupIdx rid (archive_batch parse fmt now fp (l₁ ++ bad :: l₂) st).1.archive_index).isSome ∧
      (kvLookup (rid ++ ".json")
        (archive_batch parse fmt now fp (l₁ ++ bad :: l₂) st).1.blobs).isSome := by
  constructor
  · rw [ab_count parse fmt now fp _ st hWF hpw]
    rw [List.countP_append, List.countP_cons]
    have h1 : l₁.countP (fun r => (fp r).isClean) = l₁.length := by
      rw [List.countP_eq_length]
      intro a ha
      rw [hgood a (List.mem_append_left l₂ ha)]
      rfl
    have h2 : l₂.countP (fun r => (fp r).isClean) = l₂.length := by
      rw [List.countP_eq_length]
      intro a ha
      rw [hgood a (List.mem_append_right l₁ ha)]
      rfl
    rw [h1, h2, isClean_eq_false_of_ne (fp bad) hbad]
    simp
  · intro g hg rid hgid
    have hmem : g ∈ l₁ ++ bad :: l₂ := by
      rcases List.mem_append.mp hg with h | h
      · exact List.mem_append_left _ h
      · exact List.mem_append_right _ (List.mem_cons_of_mem bad h)
    have hclean : (fp g).isClean = true := by
      rw [hgood g hg]; rfl
    exact ab_migrate_status parse fmt now fp _ st hWF hpw g hmem hclean rid hgid

/-- C5 at a concrete input: in a batch of three records where only the
middle one suffers an injected delete failure, the count is two. -/
theorem batch_isolation_witness :
    (archive_batch (fun s => if s = "7" then some 7 else none) (fun _ => "T") 100
        (fun r => if r.get "id" = some "b" then ⟨false, false, true⟩ else noFail)
        [⟨[("id", "a"), ("created_at", "7")]⟩, ⟨[("id", "b"), ("created_at", "7")]⟩,
          ⟨[("id", "c"), ("created_at", "7")]⟩]
        ⟨[⟨[("id", "a"), ("created_at", "7")]⟩, ⟨[("id", "b"), ("created_at", "7")]⟩,
          ⟨[("id", "c"), ("created_at", "7")]⟩], [], []⟩).2 = 2 :=
  (batch_isolation (fun s => if s = "7" then some 7 else none) (fun _ => "T") 100
    (fun r => if r.get "id" = some "b" then ⟨false, false, true⟩ else noFail)
    ⟨[⟨[("id", "a"), ("created_at", "7")]⟩, ⟨[("id", "b"), ("created_at", "7")]⟩,
      ⟨[("id", "c"), ("created_at", "7")]⟩], [], []⟩
    [⟨[("id", "a"), ("created_at", "7")]⟩] [⟨[("id", "c"), ("created_at", "7")]⟩]
    ⟨[("id", "b"), ("created_at", "7")]⟩
    (by
      intro r hr
      fin_cases hr
      · exact ⟨"a", by decide, by decide, by decide, by decide⟩
      · exact ⟨"b", by decide, by decide, by decide, by decide⟩
      · exact ⟨"c", by decide, by decide, by decide, by decide⟩)
    (by decide) (by decide) (by decide)).1

/-- C6: migration completeness.  For any injected per-record failures,
after a run whose selection query succeeded and found this record (with
`created_at` below the cutoff string), the run reports success and the
record is either still a member of the billing container, or its id is
fully migrated: absent from the billing container, with an archive-index
entry and a blob at the canonical path — never silently lost. -/
theorem migration_completeness (parse : String → Option Int) (fmt : Int → String)
    (now : Int) (thr bs : Nat) (fp : Rec → FailPlan) (st : St) (r : Rec)
    (hbs : 0 < bs)
    (hr : r ∈ get_records_to_archive st (fmt (now - (thr : Int)))) :
    (archive_old_records parse fmt now thr bs none fp st).2.success = true ∧
    (r ∈ (archive_old_records parse fmt now thr bs none fp st).1.primary ∨
      ∃ rid, r.get "id" = some rid ∧
        lookupById rid (archive_old_records parse fmt now thr bs none fp st).1.primary
          = none ∧
        (lookupIdx rid
          (archive_old_records parse fmt now thr bs none fp st).1.archive_index).isSome ∧
        (kvLookup (rid ++ ".json")
          (archive_old_records parse fmt now thr bs none fp st).1.blobs).isSome) := by
  have hne : get_records_to_archive st (fmt (now - (thr : Int))) ≠ [] :=
    List.ne_nil_of_mem hr
  have hmem : r ∈ st.primary := by
    unfold get_records_to_archive at hr
    exact List.mem_of_mem_filter hr
  rw [archive_old_records_run parse fmt now thr bs fp st hbs hne]
  refine ⟨rfl, ?_⟩
  rcases ab_mem parse fmt now fp r
      (get_records_to_archive st (fmt (now - (thr : Int)))) st hmem with h | ⟨rid, hid, hm⟩
  · exact Or.inl h
  · exact Or.inr ⟨rid, hid, hm.1, hm.2.1, hm.2.2⟩

/-- C6 at a concrete input: a record selected by the cutoff query, with
an injected index-creation failure, survives the run in the billing
container; the run still reports success. -/
theorem migration_completeness_witness :
    (archive_old_records (fun s => if s = "05" then some 5 else none) (fun _ => "10") 100
        90 2 none (fun _ => ⟨false, true, false⟩)
        ⟨[⟨[("id", "old1"), ("created_at", "05")]⟩], [], []⟩).2.success = true ∧
    (⟨[("id", "old1"), ("created_at", "05")]⟩ : Rec) ∈
      (archive_old_records (fun s => if s = "05" then some 5 else none) (fun _ => "10") 100
        90 2 none (fun _ => ⟨false, true, false⟩)
        ⟨[⟨[("id", "old1"), ("created_at", "05")]⟩], [], []⟩).1.primary :=
  have h := migration_completeness (fun s => if s = "05" then some 5 else none)
    (fun _ => "10") 100 90 2 (fun _ => ⟨false, true, false⟩)
    ⟨[⟨[("id", "old1"), ("created_at", "05")]⟩], [], []⟩
    ⟨[("id", "old1"), ("created_at", "05")]⟩ (by decide) (by decide)
  ⟨h.1, by
    rcases h.2 with hin | ⟨rid, hid, _, hidx, _⟩
    · exact hin
    · exact absurd hidx (by
        rw [show rid = "old1" from Option.some.inj (by rw [← hid]; decide)]
        decide)⟩

/-- C7: `ArchiveOldRecords` always yields a structured response.  A
failing selection query yields `success = false` carrying the error
message; an empty selection yields `success = true` with count zero;
otherwise the run yields `success = true` with the total count over all
batches, which equals the sequential count over the whole selection; and
a record contributes to the count exactly when all three sub-steps
(upload, index creation, primary delete) completed. -/
theorem archive_run_structured_result (parse : String → Option Int) (fmt : Int → String)
    (now : Int) (thr bs : Nat) (fp : Rec → FailPlan) (st : St) :
    (∀ m, archive_old_records parse fmt now thr bs (some m) fp st =
      (st, ⟨false, 0, "Archival process failed: " ++ m⟩)) ∧
    (get_records_to_archive st (fmt (now - (thr : Int))) = [] →
      archive_old_records parse fmt now thr bs none fp st =
        (st, ⟨true, 0, "No records found for archival"⟩)) ∧
    (0 < bs → get_records_to_archive st (fmt (now - (thr : Int))) ≠ [] →
      archive_old_records parse fmt now thr bs none fp st =
        ((archive_batch parse fmt now fp
            (get_records_to_archive st (fmt (now - (thr : Int)))) st).1,
          ⟨true,
            (archive_batch parse fmt now fp
              (get_records_to_archive st (fmt (now - (thr : Int)))) st).2,
            "Successfully archived " ++
              toString (archive_batch parse fmt now fp
                (get_records_to_archive st (fmt (now - (thr : Int)))) st).2 ++
              " records"⟩)) ∧
    (∀ (p : FailPlan) (st0 : St) (r : Rec),
      (archive_one_record parse fmt now p st0 r).2 = true →
      ∃ rid oca, r.get "id" = some rid ∧
        archive_one_record parse fmt now p st0 r =
          ((delete_record (withIdx (withBlob st0 rid r)
              ⟨rid, rid ++ ".json", now, oca⟩) rid).1, true)) := by
  refine ⟨?_, ?_, ?_, ?_⟩
  · intro m; rfl
  · intro h
    unfold archive_old_records
    simp [h]
  · intro hbs hne
    exact archive_old_records_run parse fmt now thr bs fp st hbs hne
  · intro p st0 r htrue
    rcases archive_one_record_shape parse fmt now p st0 r with he | ⟨rid, _, he⟩ |
      ⟨rid, oca, _, he⟩ | ⟨rid, oca, hid, he⟩
    · rw [he] at htrue; exact Bool.noConfusion htrue
    · rw [he] at htrue; exact Bool.noConfusion htrue
    · rw [he] at htrue; exact Bool.noConfusion htrue
    · exact ⟨rid, oca, hid, he⟩

/-- C7 at concrete inputs: a failing query produces the failure response
unchanged-state pair, and a successful run over a two-record selection
reports success with count two. -/
theorem archive_run_structured_result_witness :
    archive_old_records (fun s => if s = "05" then some 5 else none) (fun _ => "10") 100
        90 1 (some "kaboom") (fun _ => noFail) ⟨[], [], []⟩ =
      (⟨[], [], []⟩, ⟨false, 0, "Archival process failed: kaboom"⟩) ∧
    (archive_old_records (fun s => if s = "05" then some 5 else none) (fun _ => "10") 100
        90 1 none (fun _ => noFail)
        ⟨[⟨[("id", "a"), ("created_at", "05")]⟩, ⟨[("id", "b"), ("created_at", "05")]⟩],
          [], []⟩).2 =
      ⟨true, 2, "Successfully archived " ++ toString (2 : Nat) ++ " records"⟩ :=
  ⟨(archive_run_structured_result (fun s => if s = "05" then some 5 else none)
      (fun _ => "10") 100 90 1 (fun _ => noFail) ⟨[], [], []⟩).1 "kaboom",
   by
    rw [(archive_run_structured_result (fun s => if s = "05" then some 5 else none)
      (fun _ => "10") 100 90 1 (fun _ => noFail)
      ⟨[⟨[("id", "a"), ("created_at", "05")]⟩, ⟨[("id", "b"), ("created_at", "05")]⟩],
        [], []⟩).2.2.1 (by decide) (by decide)]
    decide⟩
